import Mathlib

/-!
# Verification of the whiteboard session-synchronization server

Shallow embedding of `src/server/src/sockets/socketHandler.ts` (class
`SocketManager`), the session synchronization core of the whiteboard
repository, together with the element data model from
`src/client/src/types/definition.ts`.

Modelling conventions:
* JavaScript `Map` objects (`activeCanvases`, `debounceTimers`,
  `CanvasState.users`, and socket.io's room-membership table) are embedded
  as association lists `List (String × α)` with JS `Map` semantics:
  `set` overwrites in place (preserving insertion order) or appends,
  `values()` lists values in insertion order, `delete` is a no-op on a
  missing key.
* Asynchronous I/O on the durable store (`ElementModel.findById`, which can
  resolve to a document, resolve to `null`, or reject) is embedded as an
  environment function `db : String → DbResult` with the three outcomes;
  each call site records an observable `Effect.dbRead`, and each
  `findByIdAndUpdate` upsert records an `Effect.dbWrite`.
* `socket.emit` and `socket.to(room).emit` are embedded as lists of
  directed `Effect.emit` messages; `socket.to(room)` delivers to every
  member of the transport room except the sender, which is socket.io's
  documented semantics for broadcasting from a socket.
* `setTimeout`/`clearTimeout` debounce timers are embedded as absolute
  deadlines (arrival time + 5000 ms) in `debounceTimers`; the event loop
  fires every due timer before handling the next incoming event
  (`fireDue`), and `flushAll` models letting all remaining timers expire.
* Numeric coordinates are embedded as `Int`; the server performs no
  arithmetic on them.
-/

/-- One tool tag, from `src/client/src/types/definition.ts` (`Tool`). -/
inductive Tool where
  | select
  | pencil
  | rectangle
  | pan
deriving Repr, DecidableEq

/-- The variant part of a whiteboard element: a pencil stroke carries its
point list, a rectangle carries nothing beyond the base fields
(`PencilElement` / `RectangleElement` in `definition.ts`). -/
inductive ElementDetail where
  | pencil (points : List (Int × Int))
  | rectangle
deriving Repr, DecidableEq

/-- A whiteboard element (`ElementBase` plus its variant) from
`src/client/src/types/definition.ts`.  The server file types elements as
`any[]` and treats them opaquely; this is the concrete shape the client
sends. -/
structure WhiteBoardElement where
  id : String
  x : Int
  y : Int
  width : Int
  height : Int
  stroke : String
  detail : ElementDetail
deriving Repr, DecidableEq

/-- `UserState` from `socketHandler.ts`: the per-connection participant
record, `cursors` optional until the first cursor event. -/
structure UserState where
  sessionId : String
  cursors : Option (Int × Int) := none
deriving Repr, DecidableEq

/-- `CanvasState` from `socketHandler.ts`: one room's element collection and
its participant map keyed by socket id. -/
structure CanvasState where
  element : List WhiteBoardElement
  users : List (String × UserState)
deriving Repr, DecidableEq

/-- JS `Map.prototype.get`. -/
def mapGet (m : List (String × α)) (k : String) : Option α :=
  (m.find? (fun p => p.1 = k)).map (fun p => p.2)

/-- JS `Map.prototype.set`: overwrite in place if the key exists, else
append (insertion order preserved).  Written recursively; on the
duplicate-key-free lists all the operations here produce, replacing the
first occurrence is the same as replacing the unique occurrence. -/
def mapSet (m : List (String × α)) (k : String) (v : α) : List (String × α) :=
  match m with
  | [] => [(k, v)]
  | p :: rest => if p.1 = k then (k, v) :: rest else p :: mapSet rest k v

/-- JS `Map.prototype.delete` (no-op on a missing key). -/
def mapDelete (m : List (String × α)) (k : String) : List (String × α) :=
  m.filter (fun p => ¬ p.1 = k)

/-- JS `Map.prototype.values()`, in insertion order. -/
def mapValues (m : List (String × α)) : List α :=
  m.map (fun p => p.2)

/-- The outcome of `ElementModel.findById(canvasId)`: the promise resolves
to a document (whose `element` field, after the `|| []` guard in the
handlers, is a list), resolves to `null`, or rejects (throws). -/
inductive DbResult where
  | found (elements : List WhiteBoardElement)
  | notFound
  | failure
deriving Repr, DecidableEq

/-- An outbound message payload, one constructor per `emit` call site in
`socketHandler.ts`. -/
inductive Payload where
  | canvasState (elements : List WhiteBoardElement)
  | usersJoined (users : List UserState)
  | userJoined (user : UserState)
  | userLeft (sessionId : String)
  | elementsUpdated (elements : List WhiteBoardElement)
  | userCursors (sessionId : String) (x y : Int)
  | joinError (message : String)
  | leaveError (message : String)
deriving Repr, DecidableEq

/-- An observable effect of a handler: a message delivered to one socket,
a durable-store read (`ElementModel.findById`), or a durable-store upsert
(`ElementModel.findByIdAndUpdate` with `upsert: true`). -/
inductive Effect where
  | emit (target : String) (payload : Payload)
  | dbRead (canvasId : String)
  | dbWrite (canvasId : String) (elements : List WhiteBoardElement)
deriving Repr, DecidableEq

/-- The mutable state of one `SocketManager` instance plus the socket.io
server's room-membership table (which `socket.join` / broadcasting use). -/
structure ServerState where
  activeCanvases : List (String × CanvasState)
  debounceTimers : List (String × Nat)
  rooms : List (String × List String)
deriving Repr, DecidableEq

/-- `socket.data` after the middleware ran: the socket id plus the two
handshake fields.  `none` stands for an `auth` field that is absent (or
otherwise `undefined` on `socket.data`). -/
structure SocketData where
  id : String
  canvasId : Option String
  sessionId : Option String
deriving Repr, DecidableEq

/-- JS truthiness of an optional string (`undefined` and `""` are falsy),
as used by the `if (!canvasId || !sessionId) return` guards. -/
def truthy : Option String → Bool
  | none => false
  | some s => !(s == "")

/-- An `auth` field of the connection handshake as seen by the middleware:
a string value, a present non-string value (with its JS truthiness), or
absent. -/
inductive AuthVal where
  | str (s : String)
  | nonString (truthyFlag : Bool)
  | absent
deriving Repr, DecidableEq

/-- The connection middleware installed by `setupMiddlewares`: rejects the
connection (`next(new Error(...))`, result `none`) unless
`socket.handshake.auth.canvasId` is a truthy string — i.e. a non-empty
string — and otherwise stores both fields on `socket.data` and accepts.
`sessionId` is copied verbatim and never checked here; non-string
`sessionId` values are modelled as absent. -/
def middleware (canvasIdAuth : AuthVal) (sessionIdAuth : Option String)
    (socketId : String) : Option SocketData :=
  match canvasIdAuth with
  | .str s => if s = "" then none else some ⟨socketId, some s, sessionIdAuth⟩
  | .nonString _ => none
  | .absent => none

/-- `socket.join(room)`: adds the socket to the transport room (idempotent). -/
def roomJoin (rooms : List (String × List String)) (room socketId : String) :
    List (String × List String) :=
  let cur := (mapGet rooms room).getD []
  mapSet rooms room (if socketId ∈ cur then cur else cur ++ [socketId])

/-- The sockets currently in a transport room. -/
def roomMembers (st : ServerState) (room : String) : List String :=
  (mapGet st.rooms room).getD []

/-- `socket.to(room).emit(payload)`: socket.io delivers a broadcast from a
socket to every member of the room except the sender. -/
def broadcastExceptSender (st : ServerState) (room sender : String)
    (p : Payload) : List Effect :=
  ((roomMembers st room).filter (fun sid => sid ≠ sender)).map
    (fun sid => Effect.emit sid p)

/-- The tail of `handleJoinCanvas` once `canvasState` is established and in
`activeCanvases` (registered under `canvasId`): registers the joiner in the
room's user map, emits `canvas-state` and the filtered `users-joined` list
to the joiner, and broadcasts `user-joined` to the rest of the room.
`pre` carries effects already produced (the `findById` read, if any). -/
def finishJoin (st : ServerState) (canvasId sessionId : String)
    (sock : SocketData) (cs : CanvasState) (pre : List Effect) :
    ServerState × List Effect :=
  let newUser : UserState := { sessionId := sessionId, cursors := none }
  let cs' : CanvasState := { cs with users := mapSet cs.users sock.id newUser }
  let st' : ServerState :=
    { st with activeCanvases := mapSet st.activeCanvases canvasId cs' }
  let otherUsers :=
    (mapValues cs'.users).filter (fun u => !(u.sessionId == sessionId))
  (st',
    pre ++ [Effect.emit sock.id (Payload.canvasState cs'.element),
            Effect.emit sock.id (Payload.usersJoined otherUsers)]
        ++ broadcastExceptSender st' canvasId sock.id (Payload.userJoined newUser))

/-- `handleJoinCanvas` composed with its `join-canvas` wrapper from
`setupEventHandlers`: guard on both data fields, `socket.join`, lazy
load-or-create of the room, registration and the three emissions; when
`findById` rejects, the wrapper catches and emits `join-error` to the
joining socket (the `socket.join` has already happened). -/
def onJoinCanvas (db : String → DbResult) (st : ServerState)
    (sock : SocketData) : ServerState × List Effect :=
  if truthy sock.canvasId && truthy sock.sessionId then
    let canvasId := sock.canvasId.getD ""
    let sessionId := sock.sessionId.getD ""
    let st1 : ServerState := { st with rooms := roomJoin st.rooms canvasId sock.id }
    match mapGet st1.activeCanvases canvasId with
    | some cs => finishJoin st1 canvasId sessionId sock cs []
    | none =>
      match db canvasId with
      | .failure =>
        (st1, [Effect.dbRead canvasId,
               Effect.emit sock.id (Payload.joinError "could not join canvas")])
      | .found els =>
        finishJoin st1 canvasId sessionId sock
          { element := els, users := [] } [Effect.dbRead canvasId]
      | .notFound =>
        finishJoin st1 canvasId sessionId sock
          { element := [], users := [] } [Effect.dbRead canvasId]
  else (st, [])

/-- `handleLeaveCanvas` run from the `disconnect` event: socket.io has
already removed the socket from every transport room by the time the
handler runs; the handler then deletes the user entry (no-op when the room
is not active) and broadcasts `user-left`.  The canvas entry itself is
never deleted from `activeCanvases` (the deletion is commented out in the
source as a future optimization). -/
def onDisconnect (st : ServerState) (sock : SocketData) :
    ServerState × List Effect :=
  let st0 : ServerState :=
    { st with rooms := st.rooms.map (fun p => (p.1, p.2.filter (fun sid => sid ≠ sock.id))) }
  if truthy sock.canvasId && truthy sock.sessionId then
    let canvasId := sock.canvasId.getD ""
    let sessionId := sock.sessionId.getD ""
    match mapGet st0.activeCanvases canvasId with
    | none => (st0, [])
    | some cs =>
      let cs' : CanvasState := { cs with users := mapDelete cs.users sock.id }
      let st' : ServerState :=
        { st0 with activeCanvases := mapSet st0.activeCanvases canvasId cs' }
      (st', broadcastExceptSender st' canvasId sock.id (Payload.userLeft sessionId))
  else (st0, [])

/-- The tail of `handleElementUpdate` once `canvasState` is established and
registered: overwrite the room's element collection with the payload,
broadcast `elements-updated` to the rest of the room, and arm (or re-arm)
the 5000 ms debounce timer (`scheduleDatabaseSave`), recorded as the
absolute deadline `now + 5000`. -/
def applyElementUpdate (st : ServerState) (canvasId : String)
    (sock : SocketData) (cs : CanvasState) (now : Nat)
    (elements : List WhiteBoardElement) (pre : List Effect) :
    ServerState × List Effect :=
  let cs' : CanvasState := { cs with element := elements }
  let st' : ServerState :=
    { st with activeCanvases := mapSet st.activeCanvases canvasId cs' }
  let st'' : ServerState :=
    { st' with debounceTimers := mapSet st'.debounceTimers canvasId (now + 5000) }
  (st'',
    pre ++ broadcastExceptSender st' canvasId sock.id (Payload.elementsUpdated elements))

/-- `handleElementUpdate` composed with its `element-update` wrapper:
guard on `canvasId` only (`sessionId` is never consulted), lazy
load-or-create when the room is not active, then `applyElementUpdate`.
When the lazy `findById` rejects, the inner `catch` logs and returns:
no state change and no message to anyone (the wrapper's own catch also
only logs). -/
def onElementUpdate (db : String → DbResult) (st : ServerState)
    (sock : SocketData) (now : Nat) (elements : List WhiteBoardElement) :
    ServerState × List Effect :=
  if truthy sock.canvasId then
    let canvasId := sock.canvasId.getD ""
    match mapGet st.activeCanvases canvasId with
    | some cs => applyElementUpdate st canvasId sock cs now elements []
    | none =>
      match db canvasId with
      | .failure => (st, [Effect.dbRead canvasId])
      | .found els =>
        let cs : CanvasState := { element := els, users := [] }
        applyElementUpdate
          { st with activeCanvases := mapSet st.activeCanvases canvasId cs }
          canvasId sock cs now elements [Effect.dbRead canvasId]
      | .notFound =>
        let cs : CanvasState := { element := [], users := [] }
        applyElementUpdate
          { st with activeCanvases := mapSet st.activeCanvases canvasId cs }
          canvasId sock cs now elements [Effect.dbRead canvasId]
  else (st, [])

/-- `handleCursorPosition` composed with its `user-cursors` wrapper: guard
on both data fields, silently return when the room is not active (no load,
no state change, no message), otherwise update the issuing connection's
cached cursor (if its user entry exists) and broadcast
`{sessionId, x, y}` to the rest of the room. -/
def onCursorPosition (st : ServerState) (sock : SocketData)
    (pos : Int × Int) : ServerState × List Effect :=
  if truthy sock.canvasId && truthy sock.sessionId then
    let canvasId := sock.canvasId.getD ""
    let sessionId := sock.sessionId.getD ""
    match mapGet st.activeCanvases canvasId with
    | none => (st, [])
    | some cs =>
      let cs' : CanvasState :=
        match mapGet cs.users sock.id with
        | some u => { cs with users := mapSet cs.users sock.id { u with cursors := some pos } }
        | none => cs
      let st' : ServerState :=
        { st with activeCanvases := mapSet st.activeCanvases canvasId cs' }
      (st',
        broadcastExceptSender st' canvasId sock.id
          (Payload.userCursors sessionId pos.1 pos.2))
  else (st, [])

/-- The body of the `setTimeout` callback in `scheduleDatabaseSave` for one
canvas id: if the canvas is active, upsert its current element collection
(a write failure is caught and only logged, so the state change is the
same either way); then clear the timer slot. -/
def fireOne (st : ServerState) (canvasId : String) :
    ServerState × List Effect :=
  let effs : List Effect :=
    match mapGet st.activeCanvases canvasId with
    | some cs => [Effect.dbWrite canvasId cs.element]
    | none => []
  ({ st with debounceTimers := mapDelete st.debounceTimers canvasId }, effs)

/-- Fire the timer callbacks for a list of canvas ids, in order. -/
def fireList (st : ServerState) : List String → ServerState × List Effect
  | [] => (st, [])
  | canvasId :: rest =>
    let s1 := fireOne st canvasId
    let s2 := fireList s1.1 rest
    (s2.1, s1.2 ++ s2.2)

/-- The event loop firing, before an event that arrives at time `t`, every
debounce timer whose deadline has passed. -/
def fireDue (st : ServerState) (t : Nat) : ServerState × List Effect :=
  fireList st ((st.debounceTimers.filter (fun p => p.2 ≤ t)).map (fun p => p.1))

/-- Let every still-armed debounce timer expire (the quiescent end of a
trace). -/
def flushAll (st : ServerState) : ServerState × List Effect :=
  fireList st (st.debounceTimers.map (fun p => p.1))

/-- Run a timed sequence of `element-update` events: before each event the
event loop fires the timers already due, then the handler runs. -/
def runUpdates (db : String → DbResult) (st : ServerState) :
    List (Nat × SocketData × List WhiteBoardElement) → ServerState × List Effect
  | [] => (st, [])
  | (t, sock, els) :: rest =>
    let s1 := fireDue st t
    let s2 := onElementUpdate db s1.1 sock t els
    let s3 := runUpdates db s2.1 rest
    (s3.1, s1.2 ++ s2.2 ++ s3.2)

/-- The durable-store writes for room `r` contained in an effect list, in
order, projected to their payloads. -/
def writesFor (r : String) (effs : List Effect) : List (List WhiteBoardElement) :=
  effs.filterMap (fun e =>
    match e with
    | .dbWrite c els => if c = r then some els else none
    | _ => none)

/-- A burst of element-update events on one room, as (arrival time, issuing
socket, payload) triples: `chainOk dl L` holds when the first event of `L`
arrives strictly before the armed debounce deadline `dl` and each later
one strictly before the deadline re-armed by its predecessor — i.e. less
than 5000 ms after it. -/
def chainOk (dl : Nat) : List (Nat × SocketData × List WhiteBoardElement) → Prop
  | [] => True
  | (t, _, _) :: rest => t < dl ∧ chainOk (t + 5000) rest

/-- The payload of the last event of a burst (`d` when the burst is empty). -/
def lastElems : List (Nat × SocketData × List WhiteBoardElement) →
    List WhiteBoardElement → List WhiteBoardElement
  | [], d => d
  | x :: rest, _ => lastElems rest x.2.2

/-- The deadline armed by the last event of a burst (`dl` when it is empty). -/
def lastDl : List (Nat × SocketData × List WhiteBoardElement) → Nat → Nat
  | [], dl => dl
  | x :: rest, _ => lastDl rest (x.1 + 5000)


theorem mapGet_nil (k : String) : mapGet ([] : List (String × α)) k = none := rfl

theorem mapGet_cons (p : String × α) (m : List (String × α)) (k : String) :
    mapGet (p :: m) k = if p.1 = k then some p.2 else mapGet m k := by
  by_cases h : p.1 = k
  · simp [mapGet, List.find?_cons_of_pos, h]
  · simp [mapGet, List.find?_cons_of_neg, h]

theorem mapGet_none_iff {m : List (String × α)} {k : String} :
    mapGet m k = none ↔ ∀ p ∈ m, p.1 ≠ k := by
  induction m with
  | nil => simp [mapGet_nil]
  | cons p m ih =>
    rw [mapGet_cons]
    by_cases h : p.1 = k
    · simp [h]
    · simp [h, ih]

theorem mapGet_mapSet (m : List (String × α)) (k k' : String) (v : α) :
    mapGet (mapSet m k v) k' = if k = k' then some v else mapGet m k' := by
  induction m with
  | nil => simp [mapSet, mapGet_cons, mapGet_nil]
  | cons p m ih =>
    by_cases hpk : p.1 = k
    · simp only [mapSet, hpk, if_true]
      rw [mapGet_cons, mapGet_cons]
      by_cases hk : k = k'
      · simp [hk]
      · simp [hk, hpk ▸ hk]
    · simp only [mapSet, hpk, if_false]
      rw [mapGet_cons, mapGet_cons]
      by_cases hpk' : p.1 = k'
      · have hk : ¬ k = k' := fun hh => hpk (hh ▸ hpk')
        simp [hpk', hk]
      · simp [hpk', ih]

theorem mapGet_mapSet_self (m : List (String × α)) (k : String) (v : α) :
    mapGet (mapSet m k v) k = some v := by
  simp [mapGet_mapSet]

theorem mapGet_mapSet_ne (m : List (String × α)) (k k' : String) (v : α)
    (h : k' ≠ k) : mapGet (mapSet m k v) k' = mapGet m k' := by
  simp [mapGet_mapSet, Ne.symm h]

theorem mapGet_mapDelete_ne (m : List (String × α)) (k k' : String)
    (h : k' ≠ k) : mapGet (mapDelete m k) k' = mapGet m k' := by
  induction m with
  | nil => rfl
  | cons p m ih =>
    by_cases hpk : p.1 = k
    · rw [mapGet_cons]
      simp only [mapDelete, List.filter_cons]
      rw [if_neg (by simp [hpk]), if_neg (by rw [hpk]; exact Ne.symm h)]
      exact ih
    · simp only [mapDelete, List.filter_cons]
      rw [if_pos (by simp [hpk]), mapGet_cons, mapGet_cons]
      by_cases hpk' : p.1 = k'
      · simp [hpk']
      · simp only [hpk', if_false]
        exact ih

theorem mapGet_mapDelete_self (m : List (String × α)) (k : String) :
    mapGet (mapDelete m k) k = none := by
  rw [mapGet_none_iff]
  intro p hp
  simp only [mapDelete, List.mem_filter] at hp
  simpa using hp.2

theorem writesFor_append (r : String) (a b : List Effect) :
    writesFor r (a ++ b) = writesFor r a ++ writesFor r b := by
  simp [writesFor, List.filterMap_append]

theorem emit_mem_broadcastExceptSender {st : ServerState} {room sender tgt : String}
    {p p' : Payload} :
    Effect.emit tgt p' ∈ broadcastExceptSender st room sender p ↔
      (p' = p ∧ tgt ∈ roomMembers st room ∧ tgt ≠ sender) := by
  simp only [broadcastExceptSender, List.mem_map, List.mem_filter]
  constructor
  · rintro ⟨sid, ⟨hmem, hne⟩, heq⟩
    cases heq
    exact ⟨rfl, hmem, by simpa using hne⟩
  · rintro ⟨rfl, hmem, hne⟩
    exact ⟨tgt, ⟨hmem, by simpa using hne⟩, rfl⟩

theorem broadcastExceptSender_effects {st : ServerState} {room sender : String}
    {p : Payload} {e : Effect} (h : e ∈ broadcastExceptSender st room sender p) :
    ∃ tgt, e = Effect.emit tgt p := by
  simp only [broadcastExceptSender, List.mem_map] at h
  obtain ⟨sid, _, heq⟩ := h
  exact ⟨sid, heq.symm⟩

/-- C10: a cursor-update on a room id absent from the Room Store is a
complete no-op: the server state is unchanged (nothing created or mutated)
and the effect list is empty — no broadcast to anyone and, since the
handler contains no `findById` call site at all, no lazy load is
attempted (unlike element updates). -/
theorem cursor_absent_room_noop (st : ServerState) (sock : SocketData)
    (pos : Int × Int)
    (h : mapGet st.activeCanvases (sock.canvasId.getD "") = none) :
    onCursorPosition st sock pos = (st, []) := by
  unfold onCursorPosition
  by_cases hg : truthy sock.canvasId && truthy sock.sessionId
  · simp only [hg, if_true, h]
  · simp [hg]

theorem cursor_absent_room_noop_witness :
    onCursorPosition ⟨[], [], []⟩ ⟨"sA", some "r1", some "u1"⟩ (3, 4) =
      (⟨[], [], []⟩, []) :=
  cursor_absent_room_noop ⟨[], [], []⟩ ⟨"sA", some "r1", some "u1"⟩ (3, 4) (by decide)

/-- C2: when a join's durable-store read throws (the room being absent from
the Room Store, which is the only case in which the read happens), the
`join-error` signal is emitted to the joining connection only (the effect
list is exactly the read plus one `emit` addressed to the joiner), the
Room Store is left exactly as it was — in particular still without an
entry for the room, so a later join can re-attempt the load — and the
debounce timers are untouched, so no other room or participant is
affected. -/
theorem join_db_failure (db : String → DbResult) (st : ServerState)
    (sock : SocketData) (r s : String)
    (hc : sock.canvasId = some r) (hr : r ≠ "")
    (hs : sock.sessionId = some s) (hss : s ≠ "")
    (habs : mapGet st.activeCanvases r = none)
    (hdb : db r = DbResult.failure) :
    (onJoinCanvas db st sock).1.activeCanvases = st.activeCanvases ∧
    (onJoinCanvas db st sock).1.debounceTimers = st.debounceTimers ∧
    mapGet (onJoinCanvas db st sock).1.activeCanvases r = none ∧
    (onJoinCanvas db st sock).2 =
      [Effect.dbRead r,
       Effect.emit sock.id (Payload.joinError "could not join canvas")] := by
  have hg : (truthy sock.canvasId && truthy sock.sessionId) = true := by
    rw [hc, hs]; simp [truthy, hr, hss]
  unfold onJoinCanvas
  rw [hg]
  simp only [hc, hs, Option.getD_some, if_true]
  rw [habs, hdb]
  exact ⟨rfl, rfl, habs, rfl⟩

theorem join_db_failure_witness :
    (onJoinCanvas (fun _ => DbResult.failure) ⟨[], [], []⟩
        ⟨"sA", some "r1", some "u1"⟩).1.activeCanvases = [] ∧
    (onJoinCanvas (fun _ => DbResult.failure) ⟨[], [], []⟩
        ⟨"sA", some "r1", some "u1"⟩).1.debounceTimers = [] ∧
    mapGet (onJoinCanvas (fun _ => DbResult.failure) ⟨[], [], []⟩
        ⟨"sA", some "r1", some "u1"⟩).1.activeCanvases "r1" = none ∧
    (onJoinCanvas (fun _ => DbResult.failure) ⟨[], [], []⟩
        ⟨"sA", some "r1", some "u1"⟩).2 =
      [Effect.dbRead "r1",
       Effect.emit "sA" (Payload.joinError "could not join canvas")] :=
  join_db_failure (fun _ => DbResult.failure) ⟨[], [], []⟩
    ⟨"sA", some "r1", some "u1"⟩ "r1" "u1" rfl (by decide) rfl (by decide) rfl rfl

/-- C9: a cursor-update changes only the issuing connection's cached cursor
position: the debounce timers are untouched (no save is scheduled), the
transport rooms are untouched, every room's element collection is
unchanged, every other participant entry (other connection key or other
room) is unchanged, the issuing connection's entry — when it exists —
keeps its `sessionId` and only gets `cursors := pos`, and every effect the
handler produces is a `user-cursors` message (in particular the cursor
position is never written to, or read from, durable storage). -/
theorem cursor_update_frame (st : ServerState) (sock : SocketData)
    (pos : Int × Int) (r s : String)
    (hc : sock.canvasId = some r) (hr : r ≠ "")
    (hs : sock.sessionId = some s) (hss : s ≠ "") :
    (onCursorPosition st sock pos).1.debounceTimers = st.debounceTimers ∧
    (onCursorPosition st sock pos).1.rooms = st.rooms ∧
    (∀ cid, (mapGet (onCursorPosition st sock pos).1.activeCanvases cid).map
              CanvasState.element
          = (mapGet st.activeCanvases cid).map CanvasState.element) ∧
    (∀ cid k, ¬(cid = r ∧ k = sock.id) →
        (mapGet (onCursorPosition st sock pos).1.activeCanvases cid).bind
            (fun cs => mapGet cs.users k)
          = (mapGet st.activeCanvases cid).bind (fun cs => mapGet cs.users k)) ∧
    (∀ u0, (mapGet st.activeCanvases r).bind
             (fun cs => mapGet cs.users sock.id) = some u0 →
        (mapGet (onCursorPosition st sock pos).1.activeCanvases r).bind
            (fun cs => mapGet cs.users sock.id)
          = some { u0 with cursors := some pos }) ∧
    (∀ e ∈ (onCursorPosition st sock pos).2,
        ∃ tgt, e = Effect.emit tgt (Payload.userCursors s pos.1 pos.2)) := by
  have hg : (truthy sock.canvasId && truthy sock.sessionId) = true := by
    rw [hc, hs]; simp [truthy, hr, hss]
  unfold onCursorPosition
  rw [hg]
  simp only [hc, hs, Option.getD_some, if_true]
  cases hac : mapGet st.activeCanvases r with
  | none =>
    refine ⟨rfl, rfl, fun cid => rfl, fun cid k _ => rfl, ?_, ?_⟩
    · intro u0 h0
      simp at h0
    · intro e he
      simp at he
  | some cs =>
    refine ⟨rfl, rfl, ?_, ?_, ?_, ?_⟩
    · intro cid
      by_cases hcid : cid = r
      · subst hcid
        rw [mapGet_mapSet_self, hac]
        cases humap : mapGet cs.users sock.id <;> simp [humap]
      · rw [mapGet_mapSet_ne _ _ _ _ hcid]
    · intro cid k hnk
      by_cases hcid : cid = r
      · subst hcid
        have hk : k ≠ sock.id := fun hh => hnk ⟨rfl, hh⟩
        rw [mapGet_mapSet_self, hac]
        cases humap : mapGet cs.users sock.id with
        | none => simp [humap]
        | some u =>
          simp only [humap, Option.bind_some]
          exact mapGet_mapSet_ne _ _ _ _ hk
      · rw [mapGet_mapSet_ne _ _ _ _ hcid]
    · intro u0 h0
      rw [Option.some_bind'] at h0
      rw [mapGet_mapSet_self]
      simp [h0, mapGet_mapSet_self]
    · intro e he
      simp only at he
      exact broadcastExceptSender_effects he

theorem cursor_update_frame_witness :
    (onCursorPosition ⟨[("r1", ⟨[], [("sA", ⟨"u1", none⟩)]⟩)], [], [("r1", ["sA"])]⟩
        ⟨"sA", some "r1", some "u1"⟩ (3, 4)).1.debounceTimers = [] ∧
    (mapGet (onCursorPosition ⟨[("r1", ⟨[], [("sA", ⟨"u1", none⟩)]⟩)], [], [("r1", ["sA"])]⟩
        ⟨"sA", some "r1", some "u1"⟩ (3, 4)).1.activeCanvases "r1").bind
        (fun cs => mapGet cs.users "sA") = some ⟨"u1", some (3, 4)⟩ := by
  have h := cursor_update_frame
    ⟨[("r1", ⟨[], [("sA", ⟨"u1", none⟩)]⟩)], [], [("r1", ["sA"])]⟩
    ⟨"sA", some "r1", some "u1"⟩ (3, 4) "r1" "u1" rfl (by decide) rfl (by decide)
  exact ⟨h.1, h.2.2.2.2.1 ⟨"u1", none⟩ (by decide)⟩

/-- C4: for a connection in a room, the `elements-updated` broadcast of its
element-update and the `user-cursors` broadcast of its cursor-update are
delivered exactly to the members of the transport room other than the
sender: every other connection in the room receives it, and the sender
never receives its own update echoed back. -/
theorem broadcast_no_echo (db : String → DbResult) (st : ServerState)
    (sock : SocketData) (now : Nat) (E : List WhiteBoardElement)
    (pos : Int × Int) (r s : String) (cs : CanvasState)
    (hc : sock.canvasId = some r) (hr : r ≠ "")
    (hs : sock.sessionId = some s) (hss : s ≠ "")
    (hroom : mapGet st.activeCanvases r = some cs) :
    (∀ tgt, Effect.emit tgt (Payload.elementsUpdated E) ∈
        (onElementUpdate db st sock now E).2
      ↔ (tgt ∈ roomMembers st r ∧ tgt ≠ sock.id)) ∧
    (∀ tgt, Effect.emit tgt (Payload.userCursors s pos.1 pos.2) ∈
        (onCursorPosition st sock pos).2
      ↔ (tgt ∈ roomMembers st r ∧ tgt ≠ sock.id)) := by
  have hgE : truthy sock.canvasId = true := by rw [hc]; simp [truthy, hr]
  have hg : (truthy sock.canvasId && truthy sock.sessionId) = true := by
    rw [hc, hs]; simp [truthy, hr, hss]
  constructor
  · intro tgt
    unfold onElementUpdate
    rw [hgE]
    simp only [hc, Option.getD_some, if_true, hroom]
    unfold applyElementUpdate
    simp only [List.nil_append]
    rw [emit_mem_broadcastExceptSender]
    simp [roomMembers]
  · intro tgt
    unfold onCursorPosition
    rw [hg]
    simp only [hc, hs, Option.getD_some, if_true, hroom]
    rw [emit_mem_broadcastExceptSender]
    simp [roomMembers]

theorem broadcast_no_echo_witness :
    (Effect.emit "sB" (Payload.elementsUpdated []) ∈
      (onElementUpdate (fun _ => DbResult.notFound)
        ⟨[("r1", ⟨[], [("sA", ⟨"u1", none⟩), ("sB", ⟨"u2", none⟩)]⟩)], [],
         [("r1", ["sA", "sB"])]⟩
        ⟨"sA", some "r1", some "u1"⟩ 0 []).2) ∧
    ¬ (Effect.emit "sA" (Payload.elementsUpdated []) ∈
      (onElementUpdate (fun _ => DbResult.notFound)
        ⟨[("r1", ⟨[], [("sA", ⟨"u1", none⟩), ("sB", ⟨"u2", none⟩)]⟩)], [],
         [("r1", ["sA", "sB"])]⟩
        ⟨"sA", some "r1", some "u1"⟩ 0 []).2) := by
  have h := broadcast_no_echo (fun _ => DbResult.notFound)
    ⟨[("r1", ⟨[], [("sA", ⟨"u1", none⟩), ("sB", ⟨"u2", none⟩)]⟩)], [],
     [("r1", ["sA", "sB"])]⟩
    ⟨"sA", some "r1", some "u1"⟩ 0 [] (0, 0) "r1" "u1"
    ⟨[], [("sA", ⟨"u1", none⟩), ("sB", ⟨"u2", none⟩)]⟩
    rfl (by decide) rfl (by decide) rfl
  exact ⟨(h.1 "sB").mpr ⟨by decide, by decide⟩,
         fun hin => ((h.1 "sA").mp hin).2 rfl⟩

theorem finishJoin_usersJoined_filtered {st : ServerState}
    {canvasId sessionId : String} {sock : SocketData} {cs : CanvasState}
    {pre : List Effect} {tgt : String} {l : List UserState}
    (hpre : ∀ e ∈ pre, ∀ t l2, e ≠ Effect.emit t (Payload.usersJoined l2))
    (h : Effect.emit tgt (Payload.usersJoined l) ∈
          (finishJoin st canvasId sessionId sock cs pre).2) :
    ∀ u ∈ l, u.sessionId ≠ sessionId := by
  simp only [finishJoin, broadcastExceptSender, List.mem_append, List.mem_cons,
    List.mem_singleton, List.mem_map, List.not_mem_nil, or_false,
    Effect.emit.injEq, Payload.canvasState.injEq, Payload.usersJoined.injEq,
    Payload.userJoined.injEq] at h
  rcases h with (hp | h1 | h2) | hb
  · exact absurd rfl (hpre _ hp tgt l)
  · exact absurd h1.2 (by simp)
  · rcases h2 with ⟨_, hl⟩
    subst hl
    intro u hu
    rw [List.mem_filter] at hu
    simpa using hu.2
  · obtain ⟨sid, _, _, hfalse⟩ := hb
    exact absurd hfalse (by simp)

/-- C5: joining a room that is neither in the Room Store nor in durable
storage emits to the joiner an empty element list (`canvas-state`) and an
empty other-participants list (`users-joined`); a second joiner with a
different session id then receives a `users-joined` list containing
exactly the first joiner; and in general every `users-joined` list a join
emits is filtered to exclude entries sharing the joiner's own session id. -/
theorem join_fresh_room (db : String → DbResult) (st0 : ServerState)
    (r s1 s2 k1 k2 : String)
    (hr : r ≠ "") (hs1 : s1 ≠ "") (hs2 : s2 ≠ "") (hneq : s1 ≠ s2)
    (hk : k1 ≠ k2)
    (habs : mapGet st0.activeCanvases r = none)
    (hrooms : mapGet st0.rooms r = none)
    (hdb : db r = DbResult.notFound) :
    (onJoinCanvas db st0 ⟨k1, some r, some s1⟩).2 =
      [Effect.dbRead r, Effect.emit k1 (Payload.canvasState []),
       Effect.emit k1 (Payload.usersJoined [])] ∧
    (onJoinCanvas db (onJoinCanvas db st0 ⟨k1, some r, some s1⟩).1
        ⟨k2, some r, some s2⟩).2 =
      [Effect.emit k2 (Payload.canvasState []),
       Effect.emit k2 (Payload.usersJoined [⟨s1, none⟩]),
       Effect.emit k1 (Payload.userJoined ⟨s2, none⟩)] ∧
    (∀ (st : ServerState) (sock : SocketData) (l : List UserState),
       Effect.emit sock.id (Payload.usersJoined l) ∈ (onJoinCanvas db st sock).2 →
       ∀ u ∈ l, u.sessionId ≠ sock.sessionId.getD "") := by
  have h1 : onJoinCanvas db st0 ⟨k1, some r, some s1⟩ =
      ({ activeCanvases := mapSet st0.activeCanvases r ⟨[], [(k1, ⟨s1, none⟩)]⟩,
         debounceTimers := st0.debounceTimers,
         rooms := mapSet st0.rooms r [k1] },
       [Effect.dbRead r, Effect.emit k1 (Payload.canvasState []),
        Effect.emit k1 (Payload.usersJoined [])]) := by
    unfold onJoinCanvas
    simp only [truthy, hr, hs1, Option.getD_some]
    rw [if_pos (by simp [hr, hs1])]
    rw [show mapGet st0.activeCanvases r = none from habs, hdb]
    unfold finishJoin
    simp [mapValues, mapSet, broadcastExceptSender, roomMembers, roomJoin,
      hrooms, mapGet_mapSet_self]
  refine ⟨by rw [h1], ?_, ?_⟩
  · rw [h1]
    unfold onJoinCanvas
    simp only [truthy, hr, hs2, Option.getD_some]
    rw [if_pos (by simp [hr, hs2])]
    rw [show mapGet (mapSet st0.activeCanvases r
          (⟨[], [(k1, ⟨s1, none⟩)]⟩ : CanvasState)) r
        = some ⟨[], [(k1, ⟨s1, none⟩)]⟩ from mapGet_mapSet_self _ _ _]
    unfold finishJoin
    simp only [mapSet, mapValues, broadcastExceptSender, roomMembers, roomJoin,
      mapGet_mapSet_self]
    simp [mapSet, hk, Ne.symm hk, hneq, Ne.symm hneq, hs2, mapGet_mapSet_self]
  · intro st sock l
    simp only [onJoinCanvas]
    split
    · split
      · intro hmem
        exact fun u hu => finishJoin_usersJoined_filtered (by simp) hmem u hu
      · split
        · intro hmem
          simp at hmem
        · intro hmem
          exact fun u hu => finishJoin_usersJoined_filtered (by simp) hmem u hu
        · intro hmem
          exact fun u hu => finishJoin_usersJoined_filtered (by simp) hmem u hu
    · intro hmem
      simp at hmem

theorem join_fresh_room_witness :
    (onJoinCanvas (fun _ => DbResult.notFound) ⟨[], [], []⟩
        ⟨"sA", some "r1", some "u1"⟩).2 =
      [Effect.dbRead "r1", Effect.emit "sA" (Payload.canvasState []),
       Effect.emit "sA" (Payload.usersJoined [])] ∧
    (onJoinCanvas (fun _ => DbResult.notFound)
        (onJoinCanvas (fun _ => DbResult.notFound) ⟨[], [], []⟩
          ⟨"sA", some "r1", some "u1"⟩).1
        ⟨"sB", some "r1", some "u2"⟩).2 =
      [Effect.emit "sB" (Payload.canvasState []),
       Effect.emit "sB" (Payload.usersJoined [⟨"u1", none⟩]),
       Effect.emit "sA" (Payload.userJoined ⟨"u2", none⟩)] := by
  have h := join_fresh_room (fun _ => DbResult.notFound) ⟨[], [], []⟩
    "r1" "u1" "u2" "sA" "sB" (by decide) (by decide) (by decide) (by decide)
    (by decide) rfl rfl rfl
  exact ⟨h.1, h.2.1⟩

theorem mem_mapValues_mapSet {m : List (String × α)} {k : String} {v u : α}
    (h : u ∈ mapValues (mapSet m k v)) : u = v ∨ u ∈ mapValues m := by
  induction m with
  | nil =>
    simp [mapSet, mapValues] at h
    exact Or.inl h
  | cons p m ih =>
    by_cases hpk : p.1 = k
    · simp only [mapSet, hpk, if_true, mapValues, List.map_cons, List.mem_cons] at h
      rcases h with h | h
      · exact Or.inl h
      · exact Or.inr (by simp [mapValues, h])
    · simp only [mapSet, hpk, if_false, mapValues, List.map_cons, List.mem_cons] at h
      rcases h with h | h
      · exact Or.inr (by simp [mapValues, h])
      · rcases ih (by simpa [mapValues] using h) with h' | h'
        · exact Or.inl h'
        · exact Or.inr (by simp [mapValues] at h' ⊢; exact Or.inr h')

theorem mem_mapValues_mapDelete {m : List (String × α)} {k : String} {u : α}
    (h : u ∈ mapValues (mapDelete m k)) :
    ∃ p, p ∈ m ∧ p.1 ≠ k ∧ p.2 = u := by
  simp only [mapValues, mapDelete, List.mem_map, List.mem_filter] at h
  obtain ⟨p, ⟨hp, hne⟩, hu⟩ := h
  exact ⟨p, hp, by simpa using hne, hu⟩

theorem finishJoin_usersJoined_mem {st : ServerState}
    {canvasId sessionId : String} {sock : SocketData} {cs : CanvasState}
    {pre : List Effect} {tgt : String} {l : List UserState}
    (hpre : ∀ e ∈ pre, ∀ t l2, e ≠ Effect.emit t (Payload.usersJoined l2))
    (h : Effect.emit tgt (Payload.usersJoined l) ∈
          (finishJoin st canvasId sessionId sock cs pre).2) :
    ∀ u ∈ l, u ∈ mapValues (mapSet cs.users sock.id ⟨sessionId, none⟩) ∧
      u.sessionId ≠ sessionId := by
  simp only [finishJoin, broadcastExceptSender, List.mem_append, List.mem_cons,
    List.mem_singleton, List.mem_map, List.not_mem_nil, or_false,
    Effect.emit.injEq, Payload.canvasState.injEq, Payload.usersJoined.injEq,
    Payload.userJoined.injEq] at h
  rcases h with (hp | h1 | h2) | hb
  · exact absurd rfl (hpre _ hp tgt l)
  · exact absurd h1.2 (by simp)
  · rcases h2 with ⟨_, hl⟩
    subst hl
    intro u hu
    rw [List.mem_filter] at hu
    exact ⟨hu.1, by simpa using hu.2⟩
  · obtain ⟨sid, _, _, hfalse⟩ := hb
    exact absurd hfalse (by simp)

/-- C8: disconnecting a connection from an active room deletes exactly that
connection's participant entry (other rooms are untouched), notifies the
remaining transport-room members — and never the leaver — with a
`user-left` event carrying the session id, never deletes the Room object
itself from the Room Store (the entry for the room is still present), is a
no-op (not an error) when the room is not active, and a subsequent join by
a third party emits a `users-joined` list containing no entry with the
disconnected participant's session id (when that connection was the only
one carrying it). -/
theorem disconnect_behavior (st : ServerState) (sock : SocketData)
    (r s : String) (cs : CanvasState)
    (hc : sock.canvasId = some r) (hr : r ≠ "")
    (hs : sock.sessionId = some s) (hss : s ≠ "")
    (hroom : mapGet st.activeCanvases r = some cs) :
    mapGet (onDisconnect st sock).1.activeCanvases r
      = some ⟨cs.element, mapDelete cs.users sock.id⟩ ∧
    (∀ cid, cid ≠ r → mapGet (onDisconnect st sock).1.activeCanvases cid
      = mapGet st.activeCanvases cid) ∧
    (onDisconnect st sock).2 =
      ((roomMembers (onDisconnect st sock).1 r).filter
        (fun sid => sid ≠ sock.id)).map
        (fun sid => Effect.emit sid (Payload.userLeft s)) ∧
    (∀ st2 : ServerState, mapGet st2.activeCanvases r = none →
       (onDisconnect st2 sock).1.activeCanvases = st2.activeCanvases ∧
       (onDisconnect st2 sock).2 = []) ∧
    (∀ (db : String → DbResult) (sock3 : SocketData) (l : List UserState),
       (∀ p ∈ cs.users, p.2.sessionId = s → p.1 = sock.id) →
       sock3.canvasId = some r →
       Effect.emit sock3.id (Payload.usersJoined l) ∈
         (onJoinCanvas db (onDisconnect st sock).1 sock3).2 →
       ∀ u ∈ l, u.sessionId ≠ s) := by
  have hg : (truthy sock.canvasId && truthy sock.sessionId) = true := by
    rw [hc, hs]; simp [truthy, hr, hss]
  have hmain : onDisconnect st sock =
      (⟨mapSet st.activeCanvases r ⟨cs.element, mapDelete cs.users sock.id⟩,
        st.debounceTimers,
        st.rooms.map (fun p => (p.1, p.2.filter (fun sid => sid ≠ sock.id)))⟩,
       broadcastExceptSender
        ⟨mapSet st.activeCanvases r ⟨cs.element, mapDelete cs.users sock.id⟩,
         st.debounceTimers,
         st.rooms.map (fun p => (p.1, p.2.filter (fun sid => sid ≠ sock.id)))⟩
        r sock.id (Payload.userLeft s)) := by
    unfold onDisconnect
    rw [if_pos hg]
    simp only [hc, hs, Option.getD_some]
    rw [show mapGet st.activeCanvases r = some cs from hroom]
  have hpost : mapGet (onDisconnect st sock).1.activeCanvases r
      = some ⟨cs.element, mapDelete cs.users sock.id⟩ := by
    rw [hmain]
    exact mapGet_mapSet_self _ _ _
  refine ⟨hpost, ?_, ?_, ?_, ?_⟩
  · intro cid hcid
    rw [hmain]
    exact mapGet_mapSet_ne _ _ _ _ hcid
  · rw [hmain]
    rfl
  · intro st2 habs2
    unfold onDisconnect
    rw [if_pos hg]
    simp only [hc, hs, Option.getD_some]
    rw [show mapGet st2.activeCanvases r = none from habs2]
    exact ⟨rfl, rfl⟩
  · intro db sock3 l honly hc3 hmem u hu
    simp only [onJoinCanvas, hc3, Option.getD_some] at hmem
    by_cases hg3 : (truthy (some r) && truthy sock3.sessionId) = true
    · rw [if_pos hg3] at hmem
      rw [show mapGet (onDisconnect st sock).1.activeCanvases r
            = some ⟨cs.element, mapDelete cs.users sock.id⟩ from hpost] at hmem
      have hchar := finishJoin_usersJoined_mem (by simp) hmem u hu
      intro hus
      rcases mem_mapValues_mapSet hchar.1 with hnew | hold
      · exact hchar.2 (by rw [hnew])
      · obtain ⟨p, hp, hpne, hpu⟩ := mem_mapValues_mapDelete hold
        exact hpne (honly p hp (by rw [hpu]; exact hus))
    · rw [if_neg hg3] at hmem
      simp at hmem

theorem disconnect_behavior_witness :
    mapGet (onDisconnect
        ⟨[("r1", ⟨[], [("sA", ⟨"u1", none⟩), ("sB", ⟨"u2", none⟩)]⟩)], [],
         [("r1", ["sA", "sB"])]⟩
        ⟨"sA", some "r1", some "u1"⟩).1.activeCanvases "r1"
      = some ⟨[], mapDelete [("sA", ⟨"u1", none⟩), ("sB", ⟨"u2", none⟩)] "sA"⟩ ∧
    (onDisconnect
        ⟨[("r1", ⟨[], [("sA", ⟨"u1", none⟩), ("sB", ⟨"u2", none⟩)]⟩)], [],
         [("r1", ["sA", "sB"])]⟩
        ⟨"sA", some "r1", some "u1"⟩).2 =
      ((roomMembers (onDisconnect
          ⟨[("r1", ⟨[], [("sA", ⟨"u1", none⟩), ("sB", ⟨"u2", none⟩)]⟩)], [],
           [("r1", ["sA", "sB"])]⟩
          ⟨"sA", some "r1", some "u1"⟩).1 "r1").filter
        (fun sid => sid ≠ "sA")).map
        (fun sid => Effect.emit sid (Payload.userLeft "u1")) := by
  have h := disconnect_behavior
    ⟨[("r1", ⟨[], [("sA", ⟨"u1", none⟩), ("sB", ⟨"u2", none⟩)]⟩)], [],
     [("r1", ["sA", "sB"])]⟩
    ⟨"sA", some "r1", some "u1"⟩ "r1" "u1"
    ⟨[], [("sA", ⟨"u1", none⟩), ("sB", ⟨"u2", none⟩)]⟩
    rfl (by decide) rfl (by decide) rfl
  exact ⟨h.1, h.2.2.1⟩

/-- C1 counterexample: with the room absent from the Room Store and the
lazy `findById` rejecting, the element-update handler returns after the
read with no state change at all — the Room Store still has no entry for
the room, so the in-memory collection does *not* become the update
payload; the update is dropped server-side (nothing is emitted either). -/
theorem element_update_reload_failure_drops :
    (onElementUpdate (fun _ => DbResult.failure) ⟨[], [], []⟩
        ⟨"sA", some "r1", some "u1"⟩ 0
        [⟨"e1", 0, 0, 10, 10, "#000", ElementDetail.rectangle⟩]).1.activeCanvases
      = [] ∧
    (onElementUpdate (fun _ => DbResult.failure) ⟨[], [], []⟩
        ⟨"sA", some "r1", some "u1"⟩ 0
        [⟨"e1", 0, 0, 10, 10, "#000", ElementDetail.rectangle⟩]).2
      = [Effect.dbRead "r1"] ∧
    ¬ ∃ cs : CanvasState,
        mapGet (onElementUpdate (fun _ => DbResult.failure) ⟨[], [], []⟩
          ⟨"sA", some "r1", some "u1"⟩ 0
          [⟨"e1", 0, 0, 10, 10, "#000", ElementDetail.rectangle⟩]).1.activeCanvases
          "r1" = some cs ∧
        cs.element = [⟨"e1", 0, 0, 10, 10, "#000", ElementDetail.rectangle⟩] := by
  refine ⟨rfl, rfl, ?_⟩
  rintro ⟨cs, hcs, -⟩
  rw [show mapGet (onElementUpdate (fun _ => DbResult.failure) ⟨[], [], []⟩
      ⟨"sA", some "r1", some "u1"⟩ 0
      [⟨"e1", 0, 0, 10, 10, "#000", ElementDetail.rectangle⟩]).1.activeCanvases
      "r1" = none from rfl] at hcs
  exact Option.noConfusion hcs

/-- C1 (amended): an element update on a room absent from the Room Store
first runs the same lazy-load-or-create path as join; when the read finds
a document or finds nothing, the room is (re)created, its collection
becomes the payload, the payload is broadcast to the other room members
and a save is scheduled; when the read throws, the handler returns with no
state change and nothing emitted — no error reaches the client, and the
edit remains only locally applied at the sender, never entering the
server's collection. -/
theorem element_update_lazy_load (db : String → DbResult) (st : ServerState)
    (sock : SocketData) (now : Nat) (E : List WhiteBoardElement) (r : String)
    (hc : sock.canvasId = some r) (hr : r ≠ "")
    (habs : mapGet st.activeCanvases r = none) :
    (db r ≠ DbResult.failure →
      mapGet (onElementUpdate db st sock now E).1.activeCanvases r
        = some ⟨E, []⟩ ∧
      (onElementUpdate db st sock now E).1.debounceTimers
        = mapSet st.debounceTimers r (now + 5000) ∧
      (onElementUpdate db st sock now E).2 =
        Effect.dbRead r ::
          ((roomMembers st r).filter (fun sid => sid ≠ sock.id)).map
            (fun sid => Effect.emit sid (Payload.elementsUpdated E))) ∧
    (db r = DbResult.failure →
      (onElementUpdate db st sock now E).1 = st ∧
      (onElementUpdate db st sock now E).2 = [Effect.dbRead r]) := by
  have hgE : truthy sock.canvasId = true := by rw [hc]; simp [truthy, hr]
  cases hdbr : db r with
  | failure =>
    refine ⟨fun hne => absurd rfl hne, fun _ => ?_⟩
    unfold onElementUpdate
    rw [hgE]
    simp [hc, habs, hdbr]
  | found els =>
    refine ⟨fun _ => ?_, fun heq => DbResult.noConfusion heq⟩
    unfold onElementUpdate
    rw [hgE]
    simp only [hc, Option.getD_some, if_true, habs, hdbr]
    unfold applyElementUpdate
    refine ⟨mapGet_mapSet_self _ _ _, rfl, rfl⟩
  | notFound =>
    refine ⟨fun _ => ?_, fun heq => DbResult.noConfusion heq⟩
    unfold onElementUpdate
    rw [hgE]
    simp only [hc, Option.getD_some, if_true, habs, hdbr]
    unfold applyElementUpdate
    refine ⟨mapGet_mapSet_self _ _ _, rfl, rfl⟩

theorem element_update_lazy_load_witness :
    mapGet (onElementUpdate (fun _ => DbResult.notFound) ⟨[], [], []⟩
        ⟨"sA", some "r1", some "u1"⟩ 0
        [⟨"e1", 0, 0, 10, 10, "#000", ElementDetail.rectangle⟩]).1.activeCanvases
      "r1" = some ⟨[⟨"e1", 0, 0, 10, 10, "#000", ElementDetail.rectangle⟩], []⟩ := by
  have h := element_update_lazy_load (fun _ => DbResult.notFound) ⟨[], [], []⟩
    ⟨"sA", some "r1", some "u1"⟩ 0
    [⟨"e1", 0, 0, 10, 10, "#000", ElementDetail.rectangle⟩] "r1"
    rfl (by decide) rfl
  exact (h.1 (by decide)).1

theorem mem_mapSet_cases {m : List (String × α)} {k : String} {v : α}
    {p : String × α} (h : p ∈ mapSet m k v) : p ∈ m ∨ p = (k, v) := by
  induction m with
  | nil =>
    simp [mapSet] at h
    exact Or.inr h
  | cons q m ih =>
    by_cases hqk : q.1 = k
    · simp only [mapSet, hqk, if_true, List.mem_cons] at h
      rcases h with h | h
      · exact Or.inr h
      · exact Or.inl (List.mem_cons_of_mem q h)
    · simp only [mapSet, hqk, if_false, List.mem_cons] at h
      rcases h with h | h
      · exact Or.inl (h ▸ List.mem_cons_self q m)
      · rcases ih h with h' | h'
        · exact Or.inl (List.mem_cons_of_mem q h')
        · exact Or.inr h'

theorem mapGet_some_mem {m : List (String × α)} {k : String} {v : α}
    (h : mapGet m k = some v) : ∃ p, p ∈ m ∧ p.2 = v := by
  unfold mapGet at h
  cases hf : m.find? (fun p => p.1 = k) with
  | none => rw [hf] at h; simp at h
  | some q =>
    rw [hf] at h
    simp at h
    exact ⟨q, List.mem_of_find?_eq_some hf, h⟩

/-- C6 counterexample: the server applies an element-update payload
verbatim, so a payload that repeats an element id leaves the room's
collection with that id occurring twice — the at-most-once invariant does
not hold after every operation. -/
theorem duplicate_id_accepted :
    ¬ ∀ p ∈ (onElementUpdate (fun _ => DbResult.notFound)
        ⟨[("r1", ⟨[], []⟩)], [], []⟩ ⟨"sA", some "r1", some "u1"⟩ 0
        [⟨"e1", 0, 0, 1, 1, "#000", ElementDetail.rectangle⟩,
         ⟨"e1", 2, 2, 3, 3, "#fff", ElementDetail.rectangle⟩]).1.activeCanvases,
      (p.2.element.map WhiteBoardElement.id).Nodup := by
  intro h
  have := h ("r1", ⟨[⟨"e1", 0, 0, 1, 1, "#000", ElementDetail.rectangle⟩,
    ⟨"e1", 2, 2, 3, 3, "#fff", ElementDetail.rectangle⟩], []⟩) (by decide)
  exact absurd this (by decide)

/-- C6 (amended): the server never introduces a duplicate element id on
its own: join, disconnect and cursor updates preserve the
at-most-once-per-id invariant of every room's collection, and an element
update preserves it exactly when its payload's ids are pairwise distinct
(and lazily loaded documents have distinct ids) — the server itself does
not enforce distinctness of the client-supplied payload. -/
theorem id_uniqueness_preserved (db : String → DbResult)
    (hdb : ∀ c els, db c = DbResult.found els →
      (els.map WhiteBoardElement.id).Nodup)
    (st : ServerState)
    (hst : ∀ p ∈ st.activeCanvases,
      (p.2.element.map WhiteBoardElement.id).Nodup) :
    (∀ sock, ∀ p ∈ (onJoinCanvas db st sock).1.activeCanvases,
       (p.2.element.map WhiteBoardElement.id).Nodup) ∧
    (∀ sock, ∀ p ∈ (onDisconnect st sock).1.activeCanvases,
       (p.2.element.map WhiteBoardElement.id).Nodup) ∧
    (∀ sock pos, ∀ p ∈ (onCursorPosition st sock pos).1.activeCanvases,
       (p.2.element.map WhiteBoardElement.id).Nodup) ∧
    (∀ sock now E, (E.map WhiteBoardElement.id).Nodup →
       ∀ p ∈ (onElementUpdate db st sock now E).1.activeCanvases,
       (p.2.element.map WhiteBoardElement.id).Nodup) := by
  have hofGet : ∀ (cs : CanvasState) (cid : String),
      mapGet st.activeCanvases cid = some cs →
      (cs.element.map WhiteBoardElement.id).Nodup := by
    intro cs cid hcs
    obtain ⟨p, hp, hp2⟩ := mapGet_some_mem hcs
    rw [← hp2]
    exact hst p hp
  refine ⟨?_, ?_, ?_, ?_⟩
  · intro sock p
    simp only [onJoinCanvas]
    split
    · split
      · rename_i cs hcs
        simp only [finishJoin]
        intro hp
        rcases mem_mapSet_cases hp with hp | hp
        · exact hst p hp
        · rw [hp]
          exact hofGet cs _ hcs
      · split
        · intro hp
          exact hst p hp
        · rename_i els hdbc
          simp only [finishJoin]
          intro hp
          rcases mem_mapSet_cases hp with hp | hp
          · exact hst p hp
          · rw [hp]
            exact hdb _ els hdbc
        · simp only [finishJoin]
          intro hp
          rcases mem_mapSet_cases hp with hp | hp
          · exact hst p hp
          · rw [hp]
            simp
    · intro hp
      exact hst p hp
  · intro sock p
    simp only [onDisconnect]
    split
    · split
      · intro hp
        exact hst p hp
      · rename_i cs hcs
        intro hp
        rcases mem_mapSet_cases hp with hp | hp
        · exact hst p hp
        · rw [hp]
          exact hofGet cs _ hcs
    · intro hp
      exact hst p hp
  · intro sock pos p
    simp only [onCursorPosition]
    split
    · split
      · intro hp
        exact hst p hp
      · rename_i cs hcs
        intro hp
        rcases mem_mapSet_cases hp with hp | hp
        · exact hst p hp
        · rw [hp]
          cases humap : mapGet cs.users sock.id <;>
            · simp only [humap]
              exact hofGet cs _ hcs
    · intro hp
      exact hst p hp
  · intro sock now E hE p
    simp only [onElementUpdate]
    split
    · split
      · simp only [applyElementUpdate]
        intro hp
        rcases mem_mapSet_cases hp with hp | hp
        · exact hst p hp
        · rw [hp]
          exact hE
      · split
        · intro hp
          exact hst p hp
        · rename_i els hdbc
          simp only [applyElementUpdate]
          intro hp
          rcases mem_mapSet_cases hp with hp | hp
          · rcases mem_mapSet_cases hp with hp | hp
            · exact hst p hp
            · rw [hp]
              exact hdb _ els hdbc
          · rw [hp]
            exact hE
        · simp only [applyElementUpdate]
          intro hp
          rcases mem_mapSet_cases hp with hp | hp
          · rcases mem_mapSet_cases hp with hp | hp
            · exact hst p hp
            · rw [hp]
              simp
          · rw [hp]
            exact hE
    · intro hp
      exact hst p hp

theorem id_uniqueness_preserved_witness :
    (((mapGet (onElementUpdate (fun _ => DbResult.notFound) ⟨[], [], []⟩
        ⟨"sA", some "r1", some "u1"⟩ 0
        [⟨"e1", 0, 0, 1, 1, "#000", ElementDetail.rectangle⟩]).1.activeCanvases
      "r1").getD ⟨[], []⟩).element.map WhiteBoardElement.id).Nodup := by
  have h := id_uniqueness_preserved (fun _ => DbResult.notFound)
    (fun c els heq => DbResult.noConfusion heq) ⟨[], [], []⟩
    (fun p hp => absurd hp (List.not_mem_nil p))
  exact h.2.2.2 ⟨"sA", some "r1", some "u1"⟩ 0
    [⟨"e1", 0, 0, 1, 1, "#000", ElementDetail.rectangle⟩] (by decide)
    ("r1", ⟨[⟨"e1", 0, 0, 1, 1, "#000", ElementDetail.rectangle⟩], []⟩) (by decide)

/-- C7 counterexample: the middleware checks only `canvasId`, so a
connection whose handshake carries a valid room id but no `sessionId` is
accepted — and its element-update then runs full room logic: it creates
the room in the Room Store, installs the payload, and arms the debounce
timer, refuting "a connection missing either field never runs any room
logic". -/
theorem missing_session_runs_room_logic :
    middleware (AuthVal.str "r1") none "sA" = some ⟨"sA", some "r1", none⟩ ∧
    mapGet (onElementUpdate (fun _ => DbResult.notFound) ⟨[], [], []⟩
        ⟨"sA", some "r1", none⟩ 0
        [⟨"e1", 0, 0, 1, 1, "#000", ElementDetail.rectangle⟩]).1.activeCanvases
      "r1" = some ⟨[⟨"e1", 0, 0, 1, 1, "#000", ElementDetail.rectangle⟩], []⟩ ∧
    (onElementUpdate (fun _ => DbResult.notFound) ⟨[], [], []⟩
        ⟨"sA", some "r1", none⟩ 0
        [⟨"e1", 0, 0, 1, 1, "#000", ElementDetail.rectangle⟩]).1.debounceTimers
      = [("r1", 5000)] := by
  refine ⟨rfl, ?_, rfl⟩
  rfl

/-- C7 (amended): the handshake middleware accepts a connection exactly
when `canvasId` is a non-empty string (anything else is rejected before
any room logic runs); joins, cursor updates and disconnects are guarded on
`sessionId` as well and touch neither the Room Store nor the timers
without it; but element updates are guarded on `canvasId` only and are
entirely independent of `sessionId`, so a connection missing
`participantId` can still run room logic through them. -/
theorem handshake_and_guards (a : AuthVal) (osid : Option String)
    (sid : String) :
    ((middleware a osid sid).isSome ↔
      ∃ str, a = AuthVal.str str ∧ str ≠ "") ∧
    (∀ (db : String → DbResult) (st : ServerState) (sock : SocketData),
      truthy sock.sessionId = false →
      onJoinCanvas db st sock = (st, []) ∧
      (∀ pos, onCursorPosition st sock pos = (st, [])) ∧
      (onDisconnect st sock).1.activeCanvases = st.activeCanvases ∧
      (onDisconnect st sock).1.debounceTimers = st.debounceTimers ∧
      (onDisconnect st sock).2 = []) ∧
    (∀ (db : String → DbResult) (st : ServerState) (i c : String)
       (s1 s2 : Option String) (now : Nat) (E : List WhiteBoardElement),
      onElementUpdate db st ⟨i, some c, s1⟩ now E
        = onElementUpdate db st ⟨i, some c, s2⟩ now E) := by
  refine ⟨?_, ?_, ?_⟩
  · cases a with
    | str s =>
      by_cases hse : s = ""
      · simp [middleware, hse]
      · simp [middleware, hse]
    | nonString b => simp [middleware]
    | absent => simp [middleware]
  · intro db st sock hfalse
    have hg : (truthy sock.canvasId && truthy sock.sessionId) = false := by
      rw [hfalse, Bool.and_false]
    refine ⟨?_, ?_, ?_, ?_, ?_⟩
    · unfold onJoinCanvas
      rw [hg]
      simp
    · intro pos
      unfold onCursorPosition
      rw [hg]
      simp
    · unfold onDisconnect
      rw [hg]
      simp
    · unfold onDisconnect
      rw [hg]
      simp
    · unfold onDisconnect
      rw [hg]
      simp
  · intro db st i c s1 s2 now E
    rfl

theorem handshake_and_guards_witness :
    (middleware (AuthVal.str "r1") (some "u1") "sA").isSome ∧
    onJoinCanvas (fun _ => DbResult.notFound)
      ⟨[("r1", ⟨[], []⟩)], [("r1", 9)], [("r1", ["sB"])]⟩
      ⟨"sA", some "r1", none⟩ =
      (⟨[("r1", ⟨[], []⟩)], [("r1", 9)], [("r1", ["sB"])]⟩, []) := by
  have h1 := (handshake_and_guards (AuthVal.str "r1") (some "u1") "sA").1
  have h2 := (handshake_and_guards (AuthVal.str "r1") (some "u1") "sA").2.1
    (fun _ => DbResult.notFound)
    ⟨[("r1", ⟨[], []⟩)], [("r1", 9)], [("r1", ["sB"])]⟩
    ⟨"sA", some "r1", none⟩ (by decide)
  exact ⟨h1.mpr ⟨"r1", rfl, by decide⟩, h2.1⟩

theorem fireList_activeCanvases (cids : List String) :
    ∀ st : ServerState, (fireList st cids).1.activeCanvases = st.activeCanvases := by
  induction cids with
  | nil => intro st; rfl
  | cons c rest ih =>
    intro st
    show (fireList (fireOne st c).1 rest).1.activeCanvases = st.activeCanvases
    rw [ih]
    rfl

theorem fireList_rooms (cids : List String) :
    ∀ st : ServerState, (fireList st cids).1.rooms = st.rooms := by
  induction cids with
  | nil => intro st; rfl
  | cons c rest ih =>
    intro st
    show (fireList (fireOne st c).1 rest).1.rooms = st.rooms
    rw [ih]
    rfl

theorem fireList_timer_ne (cids : List String) (r : String) :
    ∀ st : ServerState, r ∉ cids →
      mapGet (fireList st cids).1.debounceTimers r = mapGet st.debounceTimers r := by
  induction cids with
  | nil => intro st _; rfl
  | cons c rest ih =>
    intro st h
    show mapGet (fireList (fireOne st c).1 rest).1.debounceTimers r
      = mapGet st.debounceTimers r
    rw [ih _ (fun hm => h (List.mem_cons_of_mem c hm))]
    exact mapGet_mapDelete_ne _ _ _
      (fun he => h (he ▸ List.mem_cons_self c rest))

theorem mapDelete_keys_nodup {m : List (String × α)} (k : String)
    (h : (m.map Prod.fst).Nodup) : ((mapDelete m k).map Prod.fst).Nodup :=
  h.sublist (List.Sublist.map Prod.fst (List.filter_sublist m))

theorem fireList_keys_nodup (cids : List String) :
    ∀ st : ServerState, (st.debounceTimers.map Prod.fst).Nodup →
      ((fireList st cids).1.debounceTimers.map Prod.fst).Nodup := by
  induction cids with
  | nil => intro st h; exact h
  | cons c rest ih =>
    intro st h
    show ((fireList (fireOne st c).1 rest).1.debounceTimers.map Prod.fst).Nodup
    exact ih _ (mapDelete_keys_nodup c h)

theorem fireOne_writesFor_ne (st : ServerState) (c r : String) (h : c ≠ r) :
    writesFor r (fireOne st c).2 = [] := by
  unfold fireOne writesFor
  cases mapGet st.activeCanvases c <;> simp [h]

theorem fireOne_writesFor_self (st : ServerState) (r : String)
    (cs : CanvasState) (h : mapGet st.activeCanvases r = some cs) :
    writesFor r (fireOne st r).2 = [cs.element] := by
  unfold fireOne writesFor
  rw [h]
  simp

theorem fireList_writesFor_ne (cids : List String) (r : String) :
    ∀ st : ServerState, (∀ c ∈ cids, c ≠ r) →
      writesFor r (fireList st cids).2 = [] := by
  induction cids with
  | nil => intro st _; rfl
  | cons c rest ih =>
    intro st h
    show writesFor r ((fireOne st c).2 ++ (fireList (fireOne st c).1 rest).2) = []
    rw [writesFor_append,
      fireOne_writesFor_ne st c r (h c (List.mem_cons_self c rest)),
      ih _ (fun x hx => h x (List.mem_cons_of_mem c hx))]
    rfl

theorem fireList_writesFor_once (cids : List String) (r : String)
    (cs : CanvasState) :
    ∀ st : ServerState, mapGet st.activeCanvases r = some cs →
      cids.count r = 1 →
      writesFor r (fireList st cids).2 = [cs.element] := by
  induction cids with
  | nil => intro st _ hcount; simp at hcount
  | cons c rest ih =>
    intro st hcs hcount
    show writesFor r ((fireOne st c).2 ++ (fireList (fireOne st c).1 rest).2) = _
    rw [writesFor_append]
    by_cases hc : c = r
    · subst hc
      rw [fireOne_writesFor_self st c cs hcs]
      have hzero : rest.count c = 0 := by
        simpa [List.count_cons] using hcount
      have hnot : c ∉ rest := List.count_eq_zero.mp hzero
      rw [fireList_writesFor_ne rest c _ (fun x hx he => hnot (he ▸ hx))]
      rfl
    · rw [fireOne_writesFor_ne st c r hc]
      have hone : rest.count r = 1 := by
        simpa [List.count_cons, hc] using hcount
      rw [List.nil_append]
      exact ih _ (by
        rw [show (fireOne st c).1.activeCanvases = st.activeCanvases from rfl]
        exact hcs) hone

theorem writesFor_broadcast (r : String) (st : ServerState)
    (room sender : String) (p : Payload) :
    writesFor r (broadcastExceptSender st room sender p) = [] := by
  unfold broadcastExceptSender writesFor
  rw [List.filterMap_map]
  exact List.filterMap_eq_nil_iff.mpr (fun sid _ => rfl)

theorem mapGet_eq_of_mem_nodup {m : List (String × α)} {k : String} {v : α}
    (hnd : (m.map Prod.fst).Nodup) (hmem : (k, v) ∈ m) :
    mapGet m k = some v := by
  induction m with
  | nil => cases hmem
  | cons p rest ih =>
    rw [List.map_cons, List.nodup_cons] at hnd
    rw [mapGet_cons]
    rcases List.mem_cons.mp hmem with he | hm
    · rw [← he]
      simp
    · have hk : ¬ p.1 = k := by
        intro hpk
        exact hnd.1 (hpk ▸ List.mem_map.mpr ⟨(k, v), hm, rfl⟩)
      rw [if_neg hk]
      exact ih hnd.2 hm

theorem mapGet_some_mem_pair {m : List (String × α)} {k : String} {v : α}
    (h : mapGet m k = some v) : (k, v) ∈ m := by
  unfold mapGet at h
  cases hf : m.find? (fun p => p.1 = k) with
  | none => rw [hf] at h; exact Option.noConfusion h
  | some q =>
    rw [hf] at h
    simp only [Option.map_some'] at h
    have h1 : q.1 = k := by simpa using List.find?_some hf
    have h2 := List.mem_of_find?_eq_some hf
    have hq : (k, v) = q := by
      obtain ⟨q1, q2⟩ := q
      simp only at h1
      injection h with h2v
      rw [h1]
      rw [show q2 = v from h2v]
    rw [hq]
    exact h2

theorem mapSet_keys_nodup {m : List (String × α)} {k : String} {v : α}
    (h : (m.map Prod.fst).Nodup) : ((mapSet m k v).map Prod.fst).Nodup := by
  induction m with
  | nil => simp [mapSet]
  | cons p rest ih =>
    rw [List.map_cons, List.nodup_cons] at h
    by_cases hpk : p.1 = k
    · simp only [mapSet, hpk, if_true, List.map_cons, List.nodup_cons]
      exact ⟨hpk ▸ h.1, h.2⟩
    · simp only [mapSet, hpk, if_false, List.map_cons, List.nodup_cons]
      refine ⟨?_, ih h.2⟩
      intro hmem
      obtain ⟨q, hq, hq1⟩ := List.mem_map.mp hmem
      rcases mem_mapSet_cases hq with hq' | hq'
      · exact h.1 (List.mem_map.mpr ⟨q, hq', hq1⟩)
      · exact hpk (by rw [← hq1, hq'])

theorem update_step (db : String → DbResult) (r : String) (hr : r ≠ "")
    (st : ServerState) (t : Nat) (sock : SocketData)
    (E : List WhiteBoardElement) (cs : CanvasState)
    (hnd : (st.debounceTimers.map Prod.fst).Nodup)
    (hac : mapGet st.activeCanvases r = some cs)
    (hsock : sock.canvasId = some r)
    (hnotdue : r ∉ ((st.debounceTimers.filter (fun p => p.2 ≤ t)).map Prod.fst)) :
    writesFor r ((fireDue st t).2
        ++ (onElementUpdate db (fireDue st t).1 sock t E).2) = [] ∧
    (((onElementUpdate db (fireDue st t).1 sock t E).1.debounceTimers.map
        Prod.fst).Nodup) ∧
    mapGet (onElementUpdate db (fireDue st t).1 sock t E).1.activeCanvases r
      = some ⟨E, cs.users⟩ ∧
    mapGet (onElementUpdate db (fireDue st t).1 sock t E).1.debounceTimers r
      = some (t + 5000) := by
  have hac1 : mapGet (fireDue st t).1.activeCanvases r = some cs := by
    rw [show (fireDue st t).1.activeCanvases = st.activeCanvases from
      fireList_activeCanvases _ st]
    exact hac
  have hupd : onElementUpdate db (fireDue st t).1 sock t E =
      (⟨mapSet (fireDue st t).1.activeCanvases r ⟨E, cs.users⟩,
        mapSet (fireDue st t).1.debounceTimers r (t + 5000),
        (fireDue st t).1.rooms⟩,
       broadcastExceptSender
         ⟨mapSet (fireDue st t).1.activeCanvases r ⟨E, cs.users⟩,
          (fireDue st t).1.debounceTimers, (fireDue st t).1.rooms⟩
         r sock.id (Payload.elementsUpdated E)) := by
    unfold onElementUpdate
    rw [show truthy sock.canvasId = true from by rw [hsock]; simp [truthy, hr]]
    simp only [hsock, Option.getD_some, if_true, hac1]
    rfl
  refine ⟨?_, ?_, ?_, ?_⟩
  · rw [writesFor_append, hupd]
    rw [show (fireDue st t).2 = (fireList st
        ((st.debounceTimers.filter (fun p => p.2 ≤ t)).map (fun p => p.1))).2
      from rfl]
    rw [fireList_writesFor_ne _ r st (by
      intro c hc he
      exact hnotdue (he ▸ (by simpa using hc)))]
    rw [writesFor_broadcast]
    rfl
  · rw [hupd]
    exact mapSet_keys_nodup (fireList_keys_nodup _ st hnd)
  · rw [hupd]
    exact mapGet_mapSet_self _ _ _
  · rw [hupd]
    exact mapGet_mapSet_self _ _ _

theorem notdue_of_armed {st : ServerState} {r : String} {dl t : Nat}
    (hnd : (st.debounceTimers.map Prod.fst).Nodup)
    (hdt : mapGet st.debounceTimers r = some dl) (ht : t < dl) :
    r ∉ ((st.debounceTimers.filter (fun p => p.2 ≤ t)).map Prod.fst) := by
  intro hmem
  obtain ⟨p, hpf, hp1⟩ := List.mem_map.mp hmem
  rw [List.mem_filter] at hpf
  have hple : p.2 ≤ t := by simpa using hpf.2
  have hget : mapGet st.debounceTimers p.1 = some p.2 :=
    mapGet_eq_of_mem_nodup hnd hpf.1
  rw [hp1, hdt] at hget
  injection hget with hd
  omega

theorem notdue_of_none {st : ServerState} {r : String} {t : Nat}
    (hdt : mapGet st.debounceTimers r = none) :
    r ∉ ((st.debounceTimers.filter (fun p => p.2 ≤ t)).map Prod.fst) := by
  intro hmem
  obtain ⟨p, hpf, hp1⟩ := List.mem_map.mp hmem
  rw [List.mem_filter] at hpf
  exact (mapGet_none_iff.mp hdt) p hpf.1 hp1

theorem runUpdates_armed (db : String → DbResult) (r : String) (hr : r ≠ "")
    (L : List (Nat × SocketData × List WhiteBoardElement)) :
    ∀ (st : ServerState) (dl : Nat) (cs : CanvasState),
    (st.debounceTimers.map Prod.fst).Nodup →
    mapGet st.activeCanvases r = some cs →
    mapGet st.debounceTimers r = some dl →
    (∀ x ∈ L, (x.2.1).canvasId = some r) →
    chainOk dl L →
    writesFor r (runUpdates db st L).2 = [] ∧
    ((runUpdates db st L).1.debounceTimers.map Prod.fst).Nodup ∧
    mapGet (runUpdates db st L).1.debounceTimers r = some (lastDl L dl) ∧
    ∃ cs', mapGet (runUpdates db st L).1.activeCanvases r = some cs' ∧
      cs'.element = lastElems L cs.element := by
  induction L with
  | nil =>
    intro st dl cs hnd hac hdt _ _
    exact ⟨rfl, hnd, hdt, cs, hac, rfl⟩
  | cons x rest ih =>
    obtain ⟨t, sock, E⟩ := x
    intro st dl cs hnd hac hdt hsocks hchain
    obtain ⟨ht, hchain2⟩ := hchain
    have hnotdue := notdue_of_armed hnd hdt ht
    have hstep := update_step db r hr st t sock E cs hnd hac
      (hsocks (t, sock, E) (List.mem_cons_self _ _)) hnotdue
    have hrec := ih (onElementUpdate db (fireDue st t).1 sock t E).1 (t + 5000)
      ⟨E, cs.users⟩ hstep.2.1 hstep.2.2.1 hstep.2.2.2
      (fun x hx => hsocks x (List.mem_cons_of_mem _ hx)) hchain2
    refine ⟨?_, hrec.2.1, hrec.2.2.1, hrec.2.2.2⟩
    show writesFor r (((fireDue st t).2
        ++ (onElementUpdate db (fireDue st t).1 sock t E).2)
        ++ (runUpdates db (onElementUpdate db (fireDue st t).1 sock t E).1 rest).2)
      = []
    rw [writesFor_append, hstep.1, hrec.1]
    rfl

/-- C3: a burst of N ≥ 1 element-update events on one loaded room, each
arriving less than the 5000 ms debounce delay after the previous, issues
exactly one durable-store write for that room once the stream pauses: each
event cancels the previously armed timer and re-arms it at its own arrival
time plus 5000 ms (so after the whole burst the armed deadline is the
last event's), no write for the room happens during the burst, and letting
the timers expire produces exactly one write whose payload is the room's
element collection at expiry — the Nth payload. -/
theorem debounce_single_write (db : String → DbResult) (st0 : ServerState)
    (r : String) (cs0 : CanvasState) (t1 : Nat) (sock1 : SocketData)
    (E1 : List WhiteBoardElement)
    (rest : List (Nat × SocketData × List WhiteBoardElement))
    (hr : r ≠ "")
    (hnd : (st0.debounceTimers.map Prod.fst).Nodup)
    (hac : mapGet st0.activeCanvases r = some cs0)
    (hdt : mapGet st0.debounceTimers r = none)
    (hs1 : sock1.canvasId = some r)
    (hrest : ∀ x ∈ rest, (x.2.1).canvasId = some r)
    (hchain : chainOk (t1 + 5000) rest) :
    mapGet (runUpdates db st0 ((t1, sock1, E1) :: rest)).1.debounceTimers r
      = some (lastDl rest (t1 + 5000)) ∧
    writesFor r ((runUpdates db st0 ((t1, sock1, E1) :: rest)).2
        ++ (flushAll (runUpdates db st0 ((t1, sock1, E1) :: rest)).1).2)
      = [lastElems rest E1] := by
  have hnotdue := notdue_of_none (t := t1) hdt
  have hstep := update_step db r hr st0 t1 sock1 E1 cs0 hnd hac hs1 hnotdue
  have hrec := runUpdates_armed db r hr rest
    (onElementUpdate db (fireDue st0 t1).1 sock1 t1 E1).1 (t1 + 5000)
    ⟨E1, cs0.users⟩ hstep.2.1 hstep.2.2.1 hstep.2.2.2 hrest hchain
  obtain ⟨cs', hcs', hel⟩ := hrec.2.2.2
  refine ⟨hrec.2.2.1, ?_⟩
  have hrun : writesFor r (runUpdates db st0 ((t1, sock1, E1) :: rest)).2 = [] := by
    show writesFor r (((fireDue st0 t1).2
        ++ (onElementUpdate db (fireDue st0 t1).1 sock1 t1 E1).2)
        ++ (runUpdates db
          (onElementUpdate db (fireDue st0 t1).1 sock1 t1 E1).1 rest).2) = []
    rw [writesFor_append, hstep.1, hrec.1]
    rfl
  have hcount : ((runUpdates db st0
      ((t1, sock1, E1) :: rest)).1.debounceTimers.map (fun p => p.1)).count r = 1 := by
    have hmem : (r, lastDl rest (t1 + 5000)) ∈
        (runUpdates db st0 ((t1, sock1, E1) :: rest)).1.debounceTimers :=
      mapGet_some_mem_pair hrec.2.2.1
    exact List.count_eq_one_of_mem hrec.2.1 (List.mem_map.mpr ⟨_, hmem, rfl⟩)
  have hflush : writesFor r (flushAll (runUpdates db st0
      ((t1, sock1, E1) :: rest)).1).2 = [cs'.element] :=
    fireList_writesFor_once _ r cs' _ hcs' hcount
  rw [writesFor_append, hrun, hflush, hel]
  rfl

theorem debounce_single_write_witness :
    mapGet (runUpdates (fun _ => DbResult.notFound)
        ⟨[("r1", ⟨[], []⟩)], [], []⟩
        [(0, ⟨"sA", some "r1", some "u1"⟩, []),
         (3000, ⟨"sA", some "r1", some "u1"⟩,
          [⟨"e1", 0, 0, 1, 1, "#000", ElementDetail.rectangle⟩])]).1.debounceTimers
      "r1"
      = some (lastDl [(3000, ⟨"sA", some "r1", some "u1"⟩,
          [⟨"e1", 0, 0, 1, 1, "#000", ElementDetail.rectangle⟩])] (0 + 5000)) ∧
    writesFor "r1" ((runUpdates (fun _ => DbResult.notFound)
        ⟨[("r1", ⟨[], []⟩)], [], []⟩
        [(0, ⟨"sA", some "r1", some "u1"⟩, []),
         (3000, ⟨"sA", some "r1", some "u1"⟩,
          [⟨"e1", 0, 0, 1, 1, "#000", ElementDetail.rectangle⟩])]).2
      ++ (flushAll (runUpdates (fun _ => DbResult.notFound)
        ⟨[("r1", ⟨[], []⟩)], [], []⟩
        [(0, ⟨"sA", some "r1", some "u1"⟩, []),
         (3000, ⟨"sA", some "r1", some "u1"⟩,
          [⟨"e1", 0, 0, 1, 1, "#000", ElementDetail.rectangle⟩])]).1).2)
      = [lastElems [(3000, ⟨"sA", some "r1", some "u1"⟩,
          [⟨"e1", 0, 0, 1, 1, "#000", ElementDetail.rectangle⟩])] []] :=
  debounce_single_write (fun _ => DbResult.notFound)
    ⟨[("r1", ⟨[], []⟩)], [], []⟩ "r1" ⟨[], []⟩ 0
    ⟨"sA", some "r1", some "u1"⟩ []
    [(3000, ⟨"sA", some "r1", some "u1"⟩,
      [⟨"e1", 0, 0, 1, 1, "#000", ElementDetail.rectangle⟩])]
    (by decide) (by decide) rfl rfl rfl (by decide) ⟨by decide, trivial⟩
